import Mathlib

/-!
Verification of the virtual-garden control-plane provisioning code
(package `pkg/virtualgarden`) against its specification.

The Go code is shallowly embedded:
* Go `[]byte` values holding textual secret material are modelled as `String`.
* A Kubernetes `Secret`'s `Data` field (`map[string][]byte`) is an association
  list `List (String × String)` with last-writer-wins update (`setAssoc`).
* The remote object store is an association list from secret name to data.
* Go `map[string]string` values are modelled as `Option (List (String × String))`
  so that a `nil` map (`none`) is distinguishable from an empty one (`some []`).
* Fallible store calls (`client.Get`, `controllerutil.CreateOrUpdate`,
  `client.Delete`) are driven by explicit fault/result oracles supplied as
  inputs, with error codes modelled as `Nat`.
* The randomness collaborators (`utils.GenerateRandomString`,
  `cryptorand.Read` + `utils.EncodeBase64`) are modelled by values supplied in
  the environment; a boolean in each result records whether they were consumed.
-/

namespace VirtualGarden

/-- Association-list lookup, mirroring Go map indexing `m[k]` (as `Option`). -/
def lookupAssoc {α : Type} : List (String × α) → String → Option α
  | [], _ => none
  | (k2, v) :: rest, k => if k2 = k then some v else lookupAssoc rest k

/-- Association-list update, mirroring Go map assignment `m[k] = v`. -/
def setAssoc {α : Type} : List (String × α) → String → α → List (String × α)
  | [], k, v => [(k, v)]
  | (k2, v2) :: rest, k, v =>
      if k2 = k then (k2, v) :: rest else (k2, v2) :: setAssoc rest k v

theorem lookupAssoc_setAssoc {α : Type} (l : List (String × α)) (k k2 : String) (v : α) :
    lookupAssoc (setAssoc l k v) k2 = if k = k2 then some v else lookupAssoc l k2 := by
  induction l with
  | nil =>
      by_cases h : k = k2 <;> simp [setAssoc, lookupAssoc, h]
  | cons hd tl ih =>
      obtain ⟨k3, v3⟩ := hd
      by_cases h3 : k3 = k
      · subst h3
        by_cases h : k3 = k2 <;> simp [setAssoc, lookupAssoc, h]
      · by_cases h : k3 = k2
        · have hkk2 : ¬k = k2 := fun hh => h3 (h.trans hh.symm)
          have h23 : ¬k2 = k := fun hh => hkk2 hh.symm
          simp [setAssoc, lookupAssoc, h3, h, hkk2, h23]
        · simp [setAssoc, lookupAssoc, h3, h, ih]

/-- A Go `map[string]string`; `none` models a `nil` map. -/
def GoMap : Type := Option (List (String × String))

/-- Reading from a possibly-`nil` Go map: a `nil` map contains no keys. -/
def goMapLookup (m : GoMap) (k : String) : Option String :=
  match m with
  | none => none
  | some l => lookupAssoc l k

/-! ### Checksum annotation stamping
(`pkg/virtualgarden/kube_api_server_deployments.go`, lines 202-230) -/

/-- The loop body of `addChecksumsToAnnotations`: iterate over `keys`, copying
each key present in `checksums` into the accumulator map. -/
def addChecksumsLoop (checksums : GoMap) : List String → List (String × String) → List (String × String)
  | [], anns => anns
  | k :: rest, anns =>
      match goMapLookup checksums k with
      | some v => addChecksumsLoop checksums rest (setAssoc anns k v)
      | none => addChecksumsLoop checksums rest anns

/-- `addChecksumsToAnnotations(checksums, keys)`: allocates a fresh map
(`make(map[string]string)`, hence non-`nil`) and copies over every selected key
found in `checksums`. -/
def addChecksumsToAnnotations (checksums : GoMap) (keys : List String) : GoMap :=
  some ( addChecksumsLoop checksums keys [])

/-- The checksum key constants are declared in a repository file outside the
provided sources; their exact string values are irrelevant to the claims and
are represented by their identifier names. -/
def ChecksumKeyKubeAPIServerAuditPolicyConfig : String := "checksum/ChecksumKeyKubeAPIServerAuditPolicyConfig"

def ChecksumKeyKubeAPIServerEncryptionConfig : String := "checksum/ChecksumKeyKubeAPIServerEncryptionConfig"

def ChecksumKeyKubeAggregatorCA : String := "checksum/ChecksumKeyKubeAggregatorCA"

def ChecksumKeyKubeAggregatorClient : String := "checksum/ChecksumKeyKubeAggregatorClient"

def ChecksumKeyKubeAPIServerCA : String := "checksum/ChecksumKeyKubeAPIServerCA"

def ChecksumKeyKubeAPIServerServer : String := "checksum/ChecksumKeyKubeAPIServerServer"

def ChecksumKeyKubeAPIServerAuditWebhookConfig : String := "checksum/ChecksumKeyKubeAPIServerAuditWebhookConfig"

def ChecksumKeyKubeAPIServerAuthWebhookConfig : String := "checksum/ChecksumKeyKubeAPIServerAuthWebhookConfig"

def ChecksumKeyKubeAPIServerOidcAuthenticationWebhookConfig : String := "checksum/ChecksumKeyKubeAPIServerOidcAuthenticationWebhookConfig"

def ChecksumKeyKubeAPIServerStaticToken : String := "checksum/ChecksumKeyKubeAPIServerStaticToken"

def ChecksumKeyKubeAPIServerAdmissionConfig : String := "checksum/ChecksumKeyKubeAPIServerAdmissionConfig"

/-- The fixed list of watched checksum keys passed by
`computeApiServerAnnotations` (lines 203-215). -/
def apiServerChecksumKeys : List String :=
  [ChecksumKeyKubeAPIServerAuditPolicyConfig,
   ChecksumKeyKubeAPIServerEncryptionConfig,
   ChecksumKeyKubeAggregatorCA,
   ChecksumKeyKubeAggregatorClient,
   ChecksumKeyKubeAPIServerCA,
   ChecksumKeyKubeAPIServerServer,
   ChecksumKeyKubeAPIServerAuditWebhookConfig,
   ChecksumKeyKubeAPIServerAuthWebhookConfig,
   ChecksumKeyKubeAPIServerOidcAuthenticationWebhookConfig,
   ChecksumKeyKubeAPIServerStaticToken,
   ChecksumKeyKubeAPIServerAdmissionConfig]

/-- `computeApiServerAnnotations` projects the checksum mapping onto the fixed
watched-key list (lines 202-217). -/
def computeApiServerAnnotations (checksums : GoMap) : GoMap :=
  addChecksumsToAnnotations checksums apiServerChecksumKeys

theorem addChecksumsLoop_lookup (checksums : GoMap) (keys : List String)
    (anns : List (String × String)) (k : String) :
    lookupAssoc ( addChecksumsLoop checksums keys anns) k =
      if k ∈ keys ∧ (goMapLookup checksums k).isSome
      then goMapLookup checksums k
      else lookupAssoc anns k := by
  induction keys generalizing anns with
  | nil => simp [addChecksumsLoop]
  | cons hd rest ih =>
      cases hv : goMapLookup checksums hd with
      | none =>
          simp only [addChecksumsLoop, hv]
          rw [ih]
          by_cases hmem : k ∈ rest
          · simp [List.mem_cons, hmem]
          · by_cases hk : hd = k
            · subst hk
              rw [hv]
              simp [hmem]
            · have hk2 : ¬k = hd := fun hh => hk hh.symm
              simp [List.mem_cons, hmem, hk2]
      | some v =>
          simp only [addChecksumsLoop, hv]
          rw [ih, lookupAssoc_setAssoc]
          by_cases hk : hd = k
          · subst hk
            rw [hv]
            by_cases hmem : hd ∈ rest <;> simp [hmem, hv]
          · have hk2 : ¬k = hd := fun hh => hk hh.symm
            by_cases hmem : k ∈ rest
            · simp [List.mem_cons, hmem, hk]
            · simp [List.mem_cons, hmem, hk, hk2]

/-- C3: `addChecksumsToAnnotations` is exactly the projection of the checksum
mapping onto the selected keys: a key is mapped in the result iff it is
selected and present in the input, with its checksum value unchanged; keys not
selected never appear.  `computeApiServerAnnotations` is this projection
applied to the fixed list of eleven watched checksum keys. -/
theorem addChecksums_projection (checksums : GoMap) (keys : List String) (k : String) :
    (goMapLookup ( addChecksumsToAnnotations checksums keys) k =
       if k ∈ keys then goMapLookup checksums k else none) ∧
    computeApiServerAnnotations checksums = addChecksumsToAnnotations checksums apiServerChecksumKeys ∧
    apiServerChecksumKeys.length = 11 := by
  refine ⟨?_, rfl, rfl⟩
  show lookupAssoc ( addChecksumsLoop checksums keys []) k = _
  rw [addChecksumsLoop_lookup]
  by_cases hmem : k ∈ keys
  · by_cases hs : (goMapLookup checksums k).isSome
    · simp [hmem, hs]
    · simp only [hmem, hs, and_false, if_false, if_true, lookupAssoc]
      cases hv : goMapLookup checksums k with
      | none => rfl
      | some v => rw [hv] at hs; simp at hs
  · simp [hmem, lookupAssoc]

/-- C10: `addChecksumsToAnnotations` always returns a freshly allocated,
non-`nil` map; when none of the selected keys are present in the checksum
mapping the result is the empty map, not `nil`.  (The input mapping is only
read: the embedding is pure and the input is not part of the result state.) -/
theorem addChecksums_fresh_nonnil (checksums : GoMap) (keys : List String) :
    (( addChecksumsToAnnotations checksums keys) ≠ (none : GoMap)) ∧
    ((∀ k ∈ keys, goMapLookup checksums k = none) →
      ( addChecksumsToAnnotations checksums keys) = (some [] : GoMap)) := by
  constructor
  · intro h
    simp only [addChecksumsToAnnotations] at h
    exact Option.some_ne_none _ h
  · intro hall
    simp only [addChecksumsToAnnotations]
    congr 1
    induction keys with
    | nil => rfl
    | cons hd rest ih =>
        have hhd : goMapLookup checksums hd = none := hall hd (List.mem_cons_self hd rest)
        simp only [addChecksumsLoop, hhd]
        exact ih (fun k hk => hall k (List.mem_cons_of_mem hd hk))

/-- Witness for `addChecksums_fresh_nonnil`: with a checksum mapping holding
only key `"a"` and selected key `"b"`, the result is the empty map. -/
theorem addChecksums_fresh_nonnil_witness :
    ( addChecksumsToAnnotations (some [("a", "1")]) ["b"]) = (some [] : GoMap) :=
  (addChecksums_fresh_nonnil (some [("a", "1")]) ["b"]).2 (by decide)

/-! ### Secret store model
(`pkg/virtualgarden/kube_api_server_secrets.go`) -/

/-- A secret's `Data` field (`map[string][]byte`, textual values as `String`). -/
abbrev SecretData : Type := List (String × String)

/-- The remote store of secrets in the operation's namespace, by name. -/
abbrev SecretStore : Type := List (String × SecretData)

/-- The `Prefix` constant is declared in a repository file outside the provided
sources; its value is the component name used throughout the repository. -/
def namePrefix : String := "virtual-garden"

def KubeApiServerSecretNameAdmissionKubeconfig : String :=
  namePrefix ++ "-kube-apiserver-admission-kubeconfig"

def KubeApiServerSecretNameAuditWebhookConfig : String :=
  "kube-apiserver-audit-webhook-config"

def KubeApiServerSecretNameBasicAuth : String :=
  namePrefix ++ "-kube-apiserver-basic-auth"

def KubeApiServerSecretNameEncryptionConfig : String :=
  namePrefix ++ "-kube-apiserver-encryption-config"

/-- Content of the embedded `resources/validating-webhook-kubeconfig.yaml`
(`go:embed` data outside the provided sources; exact bytes irrelevant). -/
def validatingWebhookKubeconfig : String := "validating-webhook-kubeconfig-content"

/-- Content of the embedded `resources/mutating-webhook-kubeconfig.yaml`. -/
def mutatingWebhookKubeconfig : String := "mutating-webhook-kubeconfig-content"

/-- The `GardenerControlplane` part of the imports read by
`deployKubeApiServerSecretAdmissionKubeconfig`. -/
structure GardenerControlplane where
  validatingWebhookEnabled : Bool
  mutatingWebhookEnabled : Bool

/-- The slice of the operation's imports that the secret deployment reads. -/
structure Imports where
  controlplane : GardenerControlplane
  auditWebhookConfig : String

/-- The operation's environment: its imports plus the external collaborators
(fault oracles of the store and the randomness source).

* `getFault name`: when `some e`, `client.Get` on that secret fails with a
  non-NotFound error `e`; when `none`, `Get` reports the store content (found
  or NotFound).
* `writeFault name`: when `some e`, `controllerutil.CreateOrUpdate` on that
  secret fails with error `e`; when `none`, the write succeeds.
* `basicAuthPw`: the password that `utils.GenerateRandomString(32)` returns.
* `encRandomKey`: the value `utils.EncodeBase64(secretBytes)` of the 32 random
  bytes that `cryptorand.Read` produces in `generateNewEncryptionConfig`. -/
structure Env where
  imports : Imports
  getFault : String → Option Nat
  writeFault : String → Option Nat
  basicAuthPw : String
  encRandomKey : String

/-- Result of `client.Get` on a secret name. -/
inductive GetResult where
  | found (data : SecretData)
  | notFound
  | errOther (code : Nat)

/-- `client.Get`: an injected fault yields a non-NotFound error; otherwise the
store content decides between found and NotFound. -/
def clientGet (env : Env) (store : SecretStore) (name : String) : GetResult :=
  match env.getFault name with
  | some e => GetResult.errOther e
  | none =>
      match lookupAssoc store name with
      | some d => GetResult.found d
      | none => GetResult.notFound

/-- `controllerutil.CreateOrUpdate` specialised to the mutate callbacks of this
file, all of which set fixed keys on the secret's data (allocating the data map
when nil) and leave the rest of the object alone: on success the named secret's
data gains `entries`, everything else in the store is untouched. -/
def createOrUpdate (env : Env) (store : SecretStore) (name : String)
    (entries : List (String × String)) : Except Nat SecretStore :=
  match env.writeFault name with
  | some e => Except.error e
  | none =>
      let data := (lookupAssoc store name).getD []
      let data2 := entries.foldl (fun d kv => setAssoc d kv.1 kv.2) data
      Except.ok (setAssoc store name data2)

/-- Outcome of one `deployKubeApiServerSecret*` call: the resulting store (the
input store when the call errored before writing), the returned error if any,
whether any store call (read or write) was performed, and whether the
randomness source was consumed. -/
structure StepResult where
  store : SecretStore
  err : Option Nat
  accessed : Bool
  rngUsed : Bool
deriving DecidableEq, Repr

/-- `deployKubeApiServerSecretAdmissionKubeconfig` (lines 82-100): returns nil
immediately when both webhooks are disabled; otherwise create-or-updates the
admission kubeconfig secret with the two embedded kubeconfigs. -/
def deployKubeApiServerSecretAdmissionKubeconfig (env : Env) (store : SecretStore) : StepResult :=
  let cp := env.imports.controlplane
  if !cp.validatingWebhookEnabled && !cp.mutatingWebhookEnabled then
    ⟨store, none, false, false⟩
  else
    match createOrUpdate env store KubeApiServerSecretNameAdmissionKubeconfig
        [("validating-webhook", validatingWebhookKubeconfig),
         ("mutating-webhook", mutatingWebhookKubeconfig)] with
    | Except.error e => ⟨store, some e, true, false⟩
    | Except.ok s => ⟨s, none, true, false⟩

/-- `deployKubeApiServerSecretAuditWebhookConfig` (lines 102-119): returns nil
immediately when the configured audit webhook config is empty; otherwise
create-or-updates the audit webhook config secret. -/
def deployKubeApiServerSecretAuditWebhookConfig (env : Env) (store : SecretStore) : StepResult :=
  let config := env.imports.auditWebhookConfig
  if config.length = 0 then
    ⟨store, none, false, false⟩
  else
    match createOrUpdate env store KubeApiServerSecretNameAuditWebhookConfig
        [("audit-webhook-config.yaml", config)] with
    | Except.error e => ⟨store, some e, true, false⟩
    | Except.ok s => ⟨s, none, true, false⟩

def basicAuthKey : String := "basic_auth.csv"

/-- `deployKubeApiServerSecretBasicAuth` (lines 121-154): Get the secret; on a
non-NotFound error return it; on NotFound generate a fresh password and build
the csv line `fmt.Sprintf("%s,admin,admin,system:masters", pw)`; on found reuse
the existing `basic_auth.csv` value (`secret.Data[key]`, nil when absent); then
create-or-update the secret with that value. -/
def deployKubeApiServerSecretBasicAuth (env : Env) (store : SecretStore) : StepResult :=
  match clientGet env store KubeApiServerSecretNameBasicAuth with
  | GetResult.errOther e => ⟨store, some e, true, false⟩
  | GetResult.notFound =>
      let basicAuthValue := env.basicAuthPw ++ ",admin,admin,system:masters"
      match createOrUpdate env store KubeApiServerSecretNameBasicAuth
          [(basicAuthKey, basicAuthValue)] with
      | Except.error e => ⟨store, some e, true, true⟩
      | Except.ok s => ⟨s, none, true, true⟩
  | GetResult.found data =>
      let basicAuthValue := (lookupAssoc data basicAuthKey).getD ""
      match createOrUpdate env store KubeApiServerSecretNameBasicAuth
          [(basicAuthKey, basicAuthValue)] with
      | Except.error e => ⟨store, some e, true, false⟩
      | Except.ok s => ⟨s, none, true, false⟩

def encryptionConfigKey : String := "encryption-config.yaml"

/-- `generateNewEncryptionConfig` (lines 189-223): reads 32 random bytes,
base64-encodes them (`encodedKey`) and yaml-marshals the fixed
`EncryptionConfiguration` shape (resource `secrets`, an `aescbc` provider with
the single key named `key`, then an `identity` provider).  The yaml rendering
is modelled as the deterministic serialization of that shape with the encoded
key inlined. -/
def generateNewEncryptionConfig (encodedKey : String) : String :=
  "resources:\n- providers:\n  - aescbc:\n      keys:\n      - name: key\n        secret: "
    ++ encodedKey
    ++ "\n  - identity: \x7b\x7d\n  resources:\n  - secrets\n"

/-- `deployKubeApiServerSecretEncryptionConfig` (lines 156-187): Get the
secret; on a non-NotFound error return it; on NotFound generate a new
encryption config (consuming randomness); on found reuse the existing
`encryption-config.yaml` value; then create-or-update the secret with it. -/
def deployKubeApiServerSecretEncryptionConfig (env : Env) (store : SecretStore) : StepResult :=
  match clientGet env store KubeApiServerSecretNameEncryptionConfig with
  | GetResult.errOther e => ⟨store, some e, true, false⟩
  | GetResult.notFound =>
      let encryptionConfigValue := generateNewEncryptionConfig env.encRandomKey
      match createOrUpdate env store KubeApiServerSecretNameEncryptionConfig
          [(encryptionConfigKey, encryptionConfigValue)] with
      | Except.error e => ⟨store, some e, true, true⟩
      | Except.ok s => ⟨s, none, true, true⟩
  | GetResult.found data =>
      let encryptionConfigValue := (lookupAssoc data encryptionConfigKey).getD ""
      match createOrUpdate env store KubeApiServerSecretNameEncryptionConfig
          [(encryptionConfigKey, encryptionConfigValue)] with
      | Except.error e => ⟨store, some e, true, false⟩
      | Except.ok s => ⟨s, none, true, false⟩

/-- The four sub-steps of `deployKubeAPIServerSecrets`, in source order. -/
inductive SecretStep where
  | admissionKubeconfig
  | auditWebhookConfig
  | basicAuth
  | encryptionConfig
deriving DecidableEq, Repr

/-- Dispatch a sub-step to its deploy function. -/
def secretStepRun (env : Env) (store : SecretStore) : SecretStep → StepResult
  | SecretStep.admissionKubeconfig => deployKubeApiServerSecretAdmissionKubeconfig env store
  | SecretStep.auditWebhookConfig => deployKubeApiServerSecretAuditWebhookConfig env store
  | SecretStep.basicAuth => deployKubeApiServerSecretBasicAuth env store
  | SecretStep.encryptionConfig => deployKubeApiServerSecretEncryptionConfig env store

/-- Sequential early-return composition (`if err := ...; err != nil { return err }`),
additionally recording which sub-steps were attempted. -/
def runSecretSteps (env : Env) : List SecretStep → SecretStore → List SecretStep × SecretStore × Option Nat
  | [], store => ([], store, none)
  | s :: rest, store =>
      let r := secretStepRun env store s
      match r.err with
      | some e => ([s], r.store, some e)
      | none =>
          let rec2 := runSecretSteps env rest r.store
          (s :: rec2.1, rec2.2)

/-- The fixed order of sub-steps in `deployKubeAPIServerSecrets` (lines 47-65). -/
def secretStepsOrder : List SecretStep :=
  [SecretStep.admissionKubeconfig, SecretStep.auditWebhookConfig,
   SecretStep.basicAuth, SecretStep.encryptionConfig]

/-- `deployKubeAPIServerSecrets` (lines 47-65). -/
def deployKubeAPIServerSecrets (env : Env) (store : SecretStore) :
    List SecretStep × SecretStore × Option Nat :=
  runSecretSteps env secretStepsOrder store

/-- The `basic_auth.csv` / `encryption-config.yaml` value currently stored for
a secret, if any. -/
def secretValue (store : SecretStore) (name key : String) : Option String :=
  (lookupAssoc store name).bind (fun d => lookupAssoc d key)

/-! ### Deletion
(`kube_api_server_secrets.go` lines 67-80, `kube_api_server_deployments.go` lines 37-50) -/

/-- Result of `client.Delete` on a named object, as decided by the store. -/
inductive DeleteResult where
  | ok
  | notFound
  | errOther (e : Nat)
deriving DecidableEq, Repr

/-- The shared loop shape of `deleteKubeAPIServerSecrets` and
`deleteDeployments`: delete each named object in order; `client.IgnoreNotFound`
discards a NotFound error, any other error is returned at once.  The list of
names on which `Delete` was invoked is recorded alongside the returned error. -/
def deleteLoop (delRes : String → DeleteResult) : List String → List String × Option Nat
  | [] => ([], none)
  | n :: rest =>
      match delRes n with
      | DeleteResult.errOther e => ([n], some e)
      | DeleteResult.ok =>
          let r := deleteLoop delRes rest
          (n :: r.1, r.2)
      | DeleteResult.notFound =>
          let r := deleteLoop delRes rest
          (n :: r.1, r.2)

/-- The four secret names deleted by `deleteKubeAPIServerSecrets` (lines 68-73). -/
def kubeAPIServerSecretNames : List String :=
  [KubeApiServerSecretNameAdmissionKubeconfig,
   KubeApiServerSecretNameAuditWebhookConfig,
   KubeApiServerSecretNameBasicAuth,
   KubeApiServerSecretNameEncryptionConfig]

def KubeAPIServerDeploymentNameAPIServer : String := namePrefix ++ "-kube-apiserver"

def KubeAPIServerDeploymentNameControllerManager : String := namePrefix ++ "-kube-controller-manager"

/-- The two deployment names deleted by `deleteDeployments` (lines 40-43). -/
def deploymentNames : List String :=
  [KubeAPIServerDeploymentNameAPIServer, KubeAPIServerDeploymentNameControllerManager]

/-- `deleteKubeAPIServerSecrets` (lines 67-80). -/
def deleteKubeAPIServerSecrets (delRes : String → DeleteResult) : List String × Option Nat :=
  deleteLoop delRes kubeAPIServerSecretNames

/-- `deleteDeployments` (lines 37-50). -/
def deleteDeployments (delRes : String → DeleteResult) : List String × Option Nat :=
  deleteLoop delRes deploymentNames

/-! ### Theorems about the secret deployment operations -/

/-- C1: generate-once semantics of `deployKubeApiServerSecretBasicAuth`.  When
the basic-auth secret exists its `basic_auth.csv` value is persisted unchanged
and no password is generated; a password is generated and stored only when the
secret is absent; and two successive calls starting from an absent secret leave
the value written by the first call unchanged after the second. -/
theorem basicAuth_generate_once (env env2 : Env) (store : SecretStore)
    (hg : env.getFault KubeApiServerSecretNameBasicAuth = none)
    (hw : env.writeFault KubeApiServerSecretNameBasicAuth = none)
    (hg2 : env2.getFault KubeApiServerSecretNameBasicAuth = none)
    (hw2 : env2.writeFault KubeApiServerSecretNameBasicAuth = none) :
    (∀ v, secretValue store KubeApiServerSecretNameBasicAuth basicAuthKey = some v →
       ∃ s1, deployKubeApiServerSecretBasicAuth env store = ⟨s1, none, true, false⟩ ∧
         secretValue s1 KubeApiServerSecretNameBasicAuth basicAuthKey = some v) ∧
    (lookupAssoc store KubeApiServerSecretNameBasicAuth = none →
       ∃ s1, deployKubeApiServerSecretBasicAuth env store = ⟨s1, none, true, true⟩ ∧
         secretValue s1 KubeApiServerSecretNameBasicAuth basicAuthKey =
           some (env.basicAuthPw ++ ",admin,admin,system:masters")) ∧
    (lookupAssoc store KubeApiServerSecretNameBasicAuth = none →
       ∃ s1 s2, deployKubeApiServerSecretBasicAuth env store = ⟨s1, none, true, true⟩ ∧
         deployKubeApiServerSecretBasicAuth env2 s1 = ⟨s2, none, true, false⟩ ∧
         secretValue s2 KubeApiServerSecretNameBasicAuth basicAuthKey =
           secretValue s1 KubeApiServerSecretNameBasicAuth basicAuthKey) := by
  have stepFound : ∀ (e : Env), e.getFault KubeApiServerSecretNameBasicAuth = none →
      e.writeFault KubeApiServerSecretNameBasicAuth = none →
      ∀ (st : SecretStore) (v : String),
        secretValue st KubeApiServerSecretNameBasicAuth basicAuthKey = some v →
        ∃ s1, deployKubeApiServerSecretBasicAuth e st = ⟨s1, none, true, false⟩ ∧
          secretValue s1 KubeApiServerSecretNameBasicAuth basicAuthKey = some v := by
    intro e heg hew st v hv
    rcases Option.bind_eq_some.mp hv with ⟨data, hd, hvk⟩
    refine ⟨setAssoc st KubeApiServerSecretNameBasicAuth (setAssoc data basicAuthKey v), ?_, ?_⟩
    · simp [deployKubeApiServerSecretBasicAuth, clientGet, heg, hd, hvk,
        createOrUpdate, hew]
    · simp [secretValue, lookupAssoc_setAssoc]
  have stepAbsent : ∀ (e : Env), e.getFault KubeApiServerSecretNameBasicAuth = none →
      e.writeFault KubeApiServerSecretNameBasicAuth = none →
      ∀ (st : SecretStore), lookupAssoc st KubeApiServerSecretNameBasicAuth = none →
      ∃ s1, deployKubeApiServerSecretBasicAuth e st = ⟨s1, none, true, true⟩ ∧
        secretValue s1 KubeApiServerSecretNameBasicAuth basicAuthKey =
          some (e.basicAuthPw ++ ",admin,admin,system:masters") := by
    intro e heg hew st habs
    refine ⟨setAssoc st KubeApiServerSecretNameBasicAuth
      [(basicAuthKey, e.basicAuthPw ++ ",admin,admin,system:masters")], ?_, ?_⟩
    · simp [deployKubeApiServerSecretBasicAuth, clientGet, heg, habs,
        createOrUpdate, hew, setAssoc]
    · simp [secretValue, lookupAssoc_setAssoc, lookupAssoc]
  refine ⟨stepFound env hg hw store, stepAbsent env hg hw store, ?_⟩
  intro habs
  obtain ⟨s1, h1, hv1⟩ := stepAbsent env hg hw store habs
  obtain ⟨s2, h2, hv2⟩ := stepFound env2 hg2 hw2 s1 _ hv1
  exact ⟨s1, s2, h1, h2, hv2.trans hv1.symm⟩

/-- A sample environment for the witnesses: both webhooks enabled, a non-empty
audit webhook config, no store faults. -/
def sampleEnv1 : Env :=
  ⟨⟨⟨true, true⟩, "audit-config"⟩, fun _ => none, fun _ => none, "pw-one", "key-one"⟩

/-- A second sample environment with different randomness, used as the second
call's environment in the generate-once witnesses. -/
def sampleEnv2 : Env :=
  ⟨⟨⟨true, true⟩, "audit-config"⟩, fun _ => none, fun _ => none, "pw-two", "key-two"⟩

/-- Witness for `basicAuth_generate_once`: two calls from the empty store, with
different randomness the second time, leave the stored value unchanged. -/
theorem basicAuth_generate_once_witness :
    lookupAssoc ([] : SecretStore) KubeApiServerSecretNameBasicAuth = none ∧
    (∃ s1 s2, deployKubeApiServerSecretBasicAuth sampleEnv1 [] = ⟨s1, none, true, true⟩ ∧
      deployKubeApiServerSecretBasicAuth sampleEnv2 s1 = ⟨s2, none, true, false⟩ ∧
      secretValue s2 KubeApiServerSecretNameBasicAuth basicAuthKey =
        secretValue s1 KubeApiServerSecretNameBasicAuth basicAuthKey) :=
  ⟨rfl, (basicAuth_generate_once sampleEnv1 sampleEnv2 [] rfl rfl rfl rfl).2.2 rfl⟩

/-- C2: generate-once semantics of `deployKubeApiServerSecretEncryptionConfig`.
Randomness is consumed (a new key and encryption configuration generated) only
when the secret is absent; when it exists, its `encryption-config.yaml` value
is carried forward unchanged and the randomness source is not invoked. -/
theorem encryptionConfig_generate_once (env env2 : Env) (store : SecretStore)
    (hg : env.getFault KubeApiServerSecretNameEncryptionConfig = none)
    (hw : env.writeFault KubeApiServerSecretNameEncryptionConfig = none)
    (hg2 : env2.getFault KubeApiServerSecretNameEncryptionConfig = none)
    (hw2 : env2.writeFault KubeApiServerSecretNameEncryptionConfig = none) :
    (∀ v, secretValue store KubeApiServerSecretNameEncryptionConfig encryptionConfigKey = some v →
       ∃ s1, deployKubeApiServerSecretEncryptionConfig env store = ⟨s1, none, true, false⟩ ∧
         secretValue s1 KubeApiServerSecretNameEncryptionConfig encryptionConfigKey = some v) ∧
    (lookupAssoc store KubeApiServerSecretNameEncryptionConfig = none →
       ∃ s1, deployKubeApiServerSecretEncryptionConfig env store = ⟨s1, none, true, true⟩ ∧
         secretValue s1 KubeApiServerSecretNameEncryptionConfig encryptionConfigKey =
           some (generateNewEncryptionConfig env.encRandomKey)) ∧
    (lookupAssoc store KubeApiServerSecretNameEncryptionConfig = none →
       ∃ s1 s2, deployKubeApiServerSecretEncryptionConfig env store = ⟨s1, none, true, true⟩ ∧
         deployKubeApiServerSecretEncryptionConfig env2 s1 = ⟨s2, none, true, false⟩ ∧
         secretValue s2 KubeApiServerSecretNameEncryptionConfig encryptionConfigKey =
           secretValue s1 KubeApiServerSecretNameEncryptionConfig encryptionConfigKey) := by
  have stepFound : ∀ (e : Env), e.getFault KubeApiServerSecretNameEncryptionConfig = none →
      e.writeFault KubeApiServerSecretNameEncryptionConfig = none →
      ∀ (st : SecretStore) (v : String),
        secretValue st KubeApiServerSecretNameEncryptionConfig encryptionConfigKey = some v →
        ∃ s1, deployKubeApiServerSecretEncryptionConfig e st = ⟨s1, none, true, false⟩ ∧
          secretValue s1 KubeApiServerSecretNameEncryptionConfig encryptionConfigKey = some v := by
    intro e heg hew st v hv
    rcases Option.bind_eq_some.mp hv with ⟨data, hd, hvk⟩
    refine ⟨setAssoc st KubeApiServerSecretNameEncryptionConfig
      (setAssoc data encryptionConfigKey v), ?_, ?_⟩
    · simp [deployKubeApiServerSecretEncryptionConfig, clientGet, heg, hd, hvk,
        createOrUpdate, hew]
    · simp [secretValue, lookupAssoc_setAssoc]
  have stepAbsent : ∀ (e : Env), e.getFault KubeApiServerSecretNameEncryptionConfig = none →
      e.writeFault KubeApiServerSecretNameEncryptionConfig = none →
      ∀ (st : SecretStore), lookupAssoc st KubeApiServerSecretNameEncryptionConfig = none →
      ∃ s1, deployKubeApiServerSecretEncryptionConfig e st = ⟨s1, none, true, true⟩ ∧
        secretValue s1 KubeApiServerSecretNameEncryptionConfig encryptionConfigKey =
          some (generateNewEncryptionConfig e.encRandomKey) := by
    intro e heg hew st habs
    refine ⟨setAssoc st KubeApiServerSecretNameEncryptionConfig
      [(encryptionConfigKey, generateNewEncryptionConfig e.encRandomKey)], ?_, ?_⟩
    · simp [deployKubeApiServerSecretEncryptionConfig, clientGet, heg, habs,
        createOrUpdate, hew, setAssoc]
    · simp [secretValue, lookupAssoc_setAssoc, lookupAssoc]
  refine ⟨stepFound env hg hw store, stepAbsent env hg hw store, ?_⟩
  intro habs
  obtain ⟨s1, h1, hv1⟩ := stepAbsent env hg hw store habs
  obtain ⟨s2, h2, hv2⟩ := stepFound env2 hg2 hw2 s1 _ hv1
  exact ⟨s1, s2, h1, h2, hv2.trans hv1.symm⟩

/-- Witness for `encryptionConfig_generate_once`: two calls from the empty
store, with different randomness the second time, leave the value unchanged. -/
theorem encryptionConfig_generate_once_witness :
    lookupAssoc ([] : SecretStore) KubeApiServerSecretNameEncryptionConfig = none ∧
    (∃ s1 s2, deployKubeApiServerSecretEncryptionConfig sampleEnv1 [] = ⟨s1, none, true, true⟩ ∧
      deployKubeApiServerSecretEncryptionConfig sampleEnv2 s1 = ⟨s2, none, true, false⟩ ∧
      secretValue s2 KubeApiServerSecretNameEncryptionConfig encryptionConfigKey =
        secretValue s1 KubeApiServerSecretNameEncryptionConfig encryptionConfigKey) :=
  ⟨rfl, (encryptionConfig_generate_once sampleEnv1 sampleEnv2 [] rfl rfl rfl rfl).2.2 rfl⟩

/-- C4: in `deployKubeApiServerSecretBasicAuth` and
`deployKubeApiServerSecretEncryptionConfig`, a NotFound from the initial Get is
not an error — it selects the creation branch (randomness is consumed) and the
operation proceeds to the write, so the only possible error left is the
write's; any other Get error is returned as the operation's result and no
create-or-update is performed (the store is left unchanged). -/
theorem get_error_and_notfound_handling (env : Env) (store : SecretStore) :
    (∀ e, env.getFault KubeApiServerSecretNameBasicAuth = some e →
       deployKubeApiServerSecretBasicAuth env store = ⟨store, some e, true, false⟩) ∧
    (∀ e, env.getFault KubeApiServerSecretNameEncryptionConfig = some e →
       deployKubeApiServerSecretEncryptionConfig env store = ⟨store, some e, true, false⟩) ∧
    (env.getFault KubeApiServerSecretNameBasicAuth = none →
     lookupAssoc store KubeApiServerSecretNameBasicAuth = none →
       (deployKubeApiServerSecretBasicAuth env store).err =
         env.writeFault KubeApiServerSecretNameBasicAuth ∧
       (deployKubeApiServerSecretBasicAuth env store).rngUsed = true) ∧
    (env.getFault KubeApiServerSecretNameEncryptionConfig = none →
     lookupAssoc store KubeApiServerSecretNameEncryptionConfig = none →
       (deployKubeApiServerSecretEncryptionConfig env store).err =
         env.writeFault KubeApiServerSecretNameEncryptionConfig ∧
       (deployKubeApiServerSecretEncryptionConfig env store).rngUsed = true) := by
  refine ⟨?_, ?_, ?_, ?_⟩
  · intro e he
    simp [deployKubeApiServerSecretBasicAuth, clientGet, he]
  · intro e he
    simp [deployKubeApiServerSecretEncryptionConfig, clientGet, he]
  · intro hg habs
    cases hw : env.writeFault KubeApiServerSecretNameBasicAuth with
    | none =>
        simp [deployKubeApiServerSecretBasicAuth, clientGet, hg, habs, createOrUpdate, hw]
    | some e =>
        simp [deployKubeApiServerSecretBasicAuth, clientGet, hg, habs, createOrUpdate, hw]
  · intro hg habs
    cases hw : env.writeFault KubeApiServerSecretNameEncryptionConfig with
    | none =>
        simp [deployKubeApiServerSecretEncryptionConfig, clientGet, hg, habs, createOrUpdate, hw]
    | some e =>
        simp [deployKubeApiServerSecretEncryptionConfig, clientGet, hg, habs, createOrUpdate, hw]

/-- An environment whose Get on the basic-auth and encryption-config secrets
fails with a non-NotFound error (code 7). -/
def sampleEnvGetFault : Env :=
  ⟨⟨⟨true, true⟩, "audit-config"⟩, fun _ => some 7, fun _ => none, "pw-one", "key-one"⟩

/-- Witness for `get_error_and_notfound_handling`: with an injected Get error 7
the basic-auth deployment returns error 7 and leaves the store unchanged. -/
theorem get_error_and_notfound_handling_witness :
    deployKubeApiServerSecretBasicAuth sampleEnvGetFault
        [("other", [("k", "v")])] =
      ⟨[("other", [("k", "v")])], some 7, true, false⟩ :=
  (get_error_and_notfound_handling sampleEnvGetFault [("other", [("k", "v")])]).1 7 rfl

/-- C9: `deployKubeApiServerSecretAdmissionKubeconfig` returns success without
any store read or write when both webhooks are disabled, and
`deployKubeApiServerSecretAuditWebhookConfig` returns success without any store
read or write when the configured audit webhook config string is empty. -/
theorem disabled_steps_are_noops (env : Env) (store : SecretStore) :
    (env.imports.controlplane.validatingWebhookEnabled = false →
     env.imports.controlplane.mutatingWebhookEnabled = false →
       deployKubeApiServerSecretAdmissionKubeconfig env store = ⟨store, none, false, false⟩) ∧
    (env.imports.auditWebhookConfig.length = 0 →
       deployKubeApiServerSecretAuditWebhookConfig env store = ⟨store, none, false, false⟩) := by
  constructor
  · intro hv hm
    simp [deployKubeApiServerSecretAdmissionKubeconfig, hv, hm]
  · intro hc
    simp [deployKubeApiServerSecretAuditWebhookConfig, hc]

/-- An environment with both webhooks disabled and an empty audit config. -/
def sampleEnvDisabled : Env :=
  ⟨⟨⟨false, false⟩, ""⟩, fun _ => none, fun _ => none, "pw-one", "key-one"⟩

/-- Witness for `disabled_steps_are_noops` at a concrete store. -/
theorem disabled_steps_are_noops_witness :
    deployKubeApiServerSecretAdmissionKubeconfig sampleEnvDisabled [("s", [])] =
        ⟨[("s", [])], none, false, false⟩ ∧
    deployKubeApiServerSecretAuditWebhookConfig sampleEnvDisabled [("s", [])] =
        ⟨[("s", [])], none, false, false⟩ :=
  ⟨(disabled_steps_are_noops sampleEnvDisabled [("s", [])]).1 rfl rfl,
   (disabled_steps_are_noops sampleEnvDisabled [("s", [])]).2 rfl⟩

/-- C8: `deployKubeAPIServerSecrets` attempts its four sub-steps in the fixed
source order, returns success exactly when all four succeed, and on the first
sub-step failure returns that sub-step's error with the later sub-steps not
attempted (the attempted-step trace stops at the failing step). -/
theorem deploy_secrets_sequencing (env : Env) (store : SecretStore) :
    deployKubeAPIServerSecrets env store =
      (let r1 := deployKubeApiServerSecretAdmissionKubeconfig env store
       match r1.err with
       | some e => ([SecretStep.admissionKubeconfig], r1.store, some e)
       | none =>
         let r2 := deployKubeApiServerSecretAuditWebhookConfig env r1.store
         match r2.err with
         | some e =>
             ([SecretStep.admissionKubeconfig, SecretStep.auditWebhookConfig], r2.store, some e)
         | none =>
           let r3 := deployKubeApiServerSecretBasicAuth env r2.store
           match r3.err with
           | some e =>
               ([SecretStep.admissionKubeconfig, SecretStep.auditWebhookConfig,
                 SecretStep.basicAuth], r3.store, some e)
           | none =>
             let r4 := deployKubeApiServerSecretEncryptionConfig env r3.store
             match r4.err with
             | some e => (secretStepsOrder, r4.store, some e)
             | none => (secretStepsOrder, r4.store, none)) := by
  simp only [deployKubeAPIServerSecrets, secretStepsOrder, runSecretSteps, secretStepRun]
  cases h1 : (deployKubeApiServerSecretAdmissionKubeconfig env store).err with
  | some e => simp [h1]
  | none =>
      simp only [h1]
      cases h2 : (deployKubeApiServerSecretAuditWebhookConfig env
          (deployKubeApiServerSecretAdmissionKubeconfig env store).store).err with
      | some e => simp [h2]
      | none =>
          simp only [h2]
          cases h3 : (deployKubeApiServerSecretBasicAuth env
              (deployKubeApiServerSecretAuditWebhookConfig env
                (deployKubeApiServerSecretAdmissionKubeconfig env store).store).store).err with
          | some e => simp [h3]
          | none =>
              simp only [h3]
              cases h4 : (deployKubeApiServerSecretEncryptionConfig env
                  (deployKubeApiServerSecretBasicAuth env
                    (deployKubeApiServerSecretAuditWebhookConfig env
                      (deployKubeApiServerSecretAdmissionKubeconfig env store).store).store).store).err with
              | some e => simp [h4]
              | none => simp [h4]

/-- C5: deletion is idempotent with respect to absence.  When every named
object is absent (the store answers NotFound for each delete),
`deleteKubeAPIServerSecrets` and `deleteDeployments` succeed having attempted
every name; and in general, as long as no delete returns a non-NotFound error,
the loop attempts every name and succeeds — a NotFound on an individual delete
neither fails the operation nor stops the remaining deletes. -/
theorem delete_idempotent_absence (delRes : String → DeleteResult) :
    ((∀ n ∈ kubeAPIServerSecretNames, delRes n = DeleteResult.notFound) →
        deleteKubeAPIServerSecrets delRes = (kubeAPIServerSecretNames, none)) ∧
    ((∀ n ∈ deploymentNames, delRes n = DeleteResult.notFound) →
        deleteDeployments delRes = (deploymentNames, none)) ∧
    (∀ names : List String, (∀ n ∈ names, ∀ e, delRes n ≠ DeleteResult.errOther e) →
        deleteLoop delRes names = (names, none)) := by
  have general : ∀ names : List String,
      (∀ n ∈ names, ∀ e, delRes n ≠ DeleteResult.errOther e) →
      deleteLoop delRes names = (names, none) := by
    intro names hnames
    induction names with
    | nil => rfl
    | cons hd rest ih =>
        have hrest := ih (fun n hn e => hnames n (List.mem_cons_of_mem hd hn) e)
        cases hcase : delRes hd with
        | ok => simp [deleteLoop, hcase, hrest]
        | notFound => simp [deleteLoop, hcase, hrest]
        | errOther e => exact absurd hcase (hnames hd (List.mem_cons_self hd rest) e)
  refine ⟨?_, ?_, general⟩
  · intro h
    exact general kubeAPIServerSecretNames
      (fun n hn e he => by rw [h n hn] at he; cases he)
  · intro h
    exact general deploymentNames
      (fun n hn e he => by rw [h n hn] at he; cases he)

/-- Witness for `delete_idempotent_absence`: with a store where every delete
answers NotFound, both delete operations succeed over all their names. -/
theorem delete_idempotent_absence_witness :
    deleteKubeAPIServerSecrets (fun _ => DeleteResult.notFound) =
        (kubeAPIServerSecretNames, none) ∧
    deleteDeployments (fun _ => DeleteResult.notFound) = (deploymentNames, none) :=
  ⟨(delete_idempotent_absence (fun _ => DeleteResult.notFound)).1 (fun _ _ => rfl),
   (delete_idempotent_absence (fun _ => DeleteResult.notFound)).2.1 (fun _ _ => rfl)⟩

/-! ### The deletion workflow's task graph
(`pkg/virtualgarden/operation_delete.go`, lines 24-53).  The flow-graph engine
(`github.com/gardener/gardener/pkg/utils/flow`) is vendored dependency code not
among the provided sources; its `Compile`/`Run` semantics are modelled from the
specification (§4.1, §4.2). -/

/-- Modelled from the spec: a flow `Task` as compiled into the graph — an
identity, the identities of its dependencies, and the value of its skip
predicate at run start (`SkipIf`). -/
structure FlowTask where
  id : Nat
  deps : List Nat
  skipCond : Bool
deriving DecidableEq, Repr

/-- Modelled from the spec (§4.1): the layered topological sort of `Compile()`,
by repeated removal of zero-in-degree nodes; `none` on a cycle.  `fuel` bounds
the number of rounds (one node is removed per successful round, so the task
count suffices). -/
def compileLevelsAux : Nat → List FlowTask → List Nat → Option (List (List Nat))
  | _, [], _ => some []
  | 0, _ :: _, _ => none
  | fuel + 1, t :: ts, done =>
      let remaining := t :: ts
      let ready := remaining.filter (fun u => u.deps.all (fun d => done.contains d))
      if ready.isEmpty then none
      else
        let readyIds := ready.map (fun u => u.id)
        let rest := remaining.filter (fun u => !(readyIds.contains u.id))
        match compileLevelsAux fuel rest (done ++ readyIds) with
        | some ls => some (readyIds :: ls)
        | none => none

/-- Modelled from the spec (§4.1): `Compile()` — validate that every declared
dependency resolves to a task of the graph, then compute the levels. -/
def compileLevels (tasks : List FlowTask) : Option (List (List Nat)) :=
  let ids := tasks.map (fun t => t.id)
  if tasks.all (fun t => t.deps.all (fun d => ids.contains d)) then
    compileLevelsAux tasks.length tasks []
  else none

/-- Index of the level containing a task identity, if any. -/
def levelIndexOf : List (List Nat) → Nat → Option Nat
  | [], _ => none
  | lvl :: rest, i =>
      if lvl.contains i then some 0
      else match levelIndexOf rest i with
           | some n => some (n + 1)
           | none => none

/-- `a`'s level is strictly below `b`'s level (both must be scheduled). -/
def levelLtB (levels : List (List Nat)) (a b : Nat) : Bool :=
  match levelIndexOf levels a, levelIndexOf levels b with
  | some la, some lb => la < lb
  | _, _ => false

/-- The task graph built by `Delete` (`operation_delete.go`, lines 26-46):
task 0 deletes the kube-apiserver service (no dependencies); task 1 deletes the
etcds (no dependencies); task 2 deletes the backup bucket (depends on 1);
task 3 deletes the namespace (depends on 0, 1 and 2) and carries
`SkipIf(!o.handleNamespace)`. -/
def deleteWorkflowTasks (handleNamespace : Bool) : List FlowTask :=
  [⟨0, [], false⟩,
   ⟨1, [], false⟩,
   ⟨2, [1], false⟩,
   ⟨3, [0, 1, 2], !handleNamespace⟩]

/-- The levels that compiling the deletion workflow produces. -/
def deleteWorkflowLevels : List (List Nat) := [[0, 1], [2], [3]]

/-- Outcome of a task in a run (spec §4.2's task state machine). -/
inductive Outcome where
  | succeeded
  | skipped
  | failed (e : Nat)
  | notRun
deriving DecidableEq, Repr

/-- Look a task up by identity. -/
def findTask (tasks : List FlowTask) (i : Nat) : Option FlowTask :=
  tasks.find? (fun t => t.id == i)

/-- Modelled from the spec (§4.2): run the tasks of one level.  A task whose
skip predicate holds is marked Skipped without its body being invoked;
otherwise the body (`bodies i`, returning `some e` on failure) runs and the
task is marked Succeeded or Failed.  Returns the outcomes and the identities
whose bodies were invoked. -/
def runLevel (tasks : List FlowTask) (bodies : Nat → Option Nat) :
    List Nat → List (Nat × Outcome) × List Nat
  | [] => ([], [])
  | i :: rest =>
      let r := runLevel tasks bodies rest
      match findTask tasks i with
      | none => ((i, Outcome.notRun) :: r.1, r.2)
      | some t =>
          if t.skipCond then ((i, Outcome.skipped) :: r.1, r.2)
          else
            match bodies i with
            | none => ((i, Outcome.succeeded) :: r.1, i :: r.2)
            | some e => ((i, Outcome.failed e) :: r.1, i :: r.2)

/-- Modelled from the spec (§4.2): run the plan level by level; after a level
with a Failed outcome, no further level is admitted and its tasks are reported
NotRun.  Returns the outcomes, the invoked identities, and whether any task
failed (the run is successful iff this is `false`). -/
def runPlan (tasks : List FlowTask) (bodies : Nat → Option Nat) :
    List (List Nat) → List (Nat × Outcome) × List Nat × Bool
  | [] => ([], [], false)
  | lvl :: rest =>
      let r := runLevel tasks bodies lvl
      let failedHere := r.1.any (fun p =>
        match p.2 with
        | Outcome.failed _ => true
        | _ => false)
      if failedHere then
        (r.1 ++ (rest.flatten.map (fun i => (i, Outcome.notRun))), r.2, true)
      else
        let r2 := runPlan tasks bodies rest
        (r.1 ++ r2.1, r.2 ++ r2.2.1, r2.2.2)

/-- `Delete` (`operation_delete.go`): compile the deletion graph and run it.
`bodies i = some e` means the i-th task's body returns error `e`. -/
def runDeleteWorkflow (handleNamespace : Bool) (bodies : Nat → Option Nat) :
    Option (List (Nat × Outcome) × List Nat × Bool) :=
  match compileLevels (deleteWorkflowTasks handleNamespace) with
  | some levels => some (runPlan (deleteWorkflowTasks handleNamespace) bodies levels)
  | none => none

/-- C6: the deletion workflow's task graph is acyclic, `Compile()` succeeds
with levels `[[service, etcd], [backup bucket], [namespace]]`, every task's
level index is strictly greater than the maximum level index of its
dependencies, the backup-bucket task is at a later level than the etcd task,
and the namespace task is at a later level than the service, etcd and
backup-bucket tasks. -/
theorem delete_workflow_compile_levels (handleNamespace : Bool) :
    compileLevels (deleteWorkflowTasks handleNamespace) = some deleteWorkflowLevels ∧
    ((deleteWorkflowTasks handleNamespace).all (fun t =>
        t.deps.all (fun d => levelLtB deleteWorkflowLevels d t.id)) = true) ∧
    levelLtB deleteWorkflowLevels 1 2 = true ∧
    levelLtB deleteWorkflowLevels 0 3 = true ∧
    levelLtB deleteWorkflowLevels 1 3 = true ∧
    levelLtB deleteWorkflowLevels 2 3 = true := by
  cases handleNamespace <;> exact ⟨rfl, rfl, rfl, rfl, rfl, rfl⟩

/-- C7: in the deletion workflow, when `handleNamespace` is false the namespace
task's skip predicate holds, so `DeleteNamespace` is never invoked, the task is
recorded Skipped (never Failed), and the run completes successfully when the
other three bodies succeed; when `handleNamespace` is true the body is
invoked. -/
theorem delete_namespace_skip (bodies : Nat → Option Nat)
    (h0 : bodies 0 = none) (h1 : bodies 1 = none) (h2 : bodies 2 = none) :
    (∃ outs invoked, runDeleteWorkflow false bodies = some (outs, invoked, false) ∧
       (3, Outcome.skipped) ∈ outs ∧ (∀ e, (3, Outcome.failed e) ∉ outs) ∧ 3 ∉ invoked) ∧
    (∃ outs invoked failedFlag,
       runDeleteWorkflow true bodies = some (outs, invoked, failedFlag) ∧ 3 ∈ invoked) := by
  constructor
  · refine ⟨[(0, Outcome.succeeded), (1, Outcome.succeeded), (2, Outcome.succeeded),
      (3, Outcome.skipped)], [0, 1, 2], ?_, by decide, fun e => by simp, by decide⟩
    simp [runDeleteWorkflow, compileLevels, compileLevelsAux, deleteWorkflowTasks,
      runPlan, runLevel, findTask, List.find?, h0, h1, h2]
  · cases hb3 : bodies 3 with
    | none =>
        refine ⟨[(0, Outcome.succeeded), (1, Outcome.succeeded), (2, Outcome.succeeded),
          (3, Outcome.succeeded)], [0, 1, 2, 3], false, ?_, by decide⟩
        simp [runDeleteWorkflow, compileLevels, compileLevelsAux, deleteWorkflowTasks,
          runPlan, runLevel, findTask, List.find?, h0, h1, h2, hb3]
    | some e =>
        refine ⟨[(0, Outcome.succeeded), (1, Outcome.succeeded), (2, Outcome.succeeded),
          (3, Outcome.failed e)], [0, 1, 2, 3], true, ?_, by decide⟩
        simp [runDeleteWorkflow, compileLevels, compileLevelsAux, deleteWorkflowTasks,
          runPlan, runLevel, findTask, List.find?, h0, h1, h2, hb3]

/-- Witness for `delete_namespace_skip` with all bodies succeeding. -/
theorem delete_namespace_skip_witness :
    (∃ outs invoked,
       runDeleteWorkflow false (fun _ => none) = some (outs, invoked, false) ∧
       (3, Outcome.skipped) ∈ outs ∧ (∀ e, (3, Outcome.failed e) ∉ outs) ∧ 3 ∉ invoked) ∧
    (∃ outs invoked failedFlag,
       runDeleteWorkflow true (fun _ => none) = some (outs, invoked, failedFlag) ∧
       3 ∈ invoked) :=
  delete_namespace_skip (fun _ => none) rfl rfl rfl

end VirtualGarden
